import Mathlib

/-!
Verification of the diagram connectivity engine of the `erro` repository.

The development shallowly embeds, in Lean over exact rational arithmetic:

* `src/cycle_detector.py` — three-colour DFS cycle detection
  (`CycleDetector.find_cycles`, `_build_adjacency_list`, `_dfs_visit`);
* `src/widget/arrow.py` — the geometric engine: boundary intersection
  (`_get_edge_intersection`, `_find_closest_point_on_boundary`,
  `_line_segment_intersection`), parallel-group detection
  (`_lines_are_parallel_and_overlapping`, `_lines_overlap`,
  `_segments_overlap_in_projection`, `_segments_close_enough_perpendicularly`),
  curve assignment (`_update_curve_positioning`,
  `_calculate_bezier_control_points`), and self-loop placement
  (`_update_self_loop_position`, `_find_best_loop_side`).

Conventions.  Python `float` coordinates are modelled by `ℚ`.  Every call to
`math.sqrt` is modelled by an explicit function argument `sq : ℚ → ℚ`; the
theorems that do not depend on actual square-root values are quantified over
`sq`, and the canonical instance `ratSqrt` (a rational square-root
approximation) is used to build concrete witnesses.  Python object identity
(`id(x)`, used as a sort key) is modelled by a stable integer field `aid`,
and node object identity by an integer field `nid`.
-/

namespace Erro

/-! ### Cycle detector (`src/cycle_detector.py`) -/

/-- Colour of a node during DFS (`NodeState` in `cycle_detector.py`). -/
inductive NodeState where
  | WHITE
  | GRAY
  | BLACK
deriving DecidableEq, Repr

/-- A directed arrow of the cycle-detection graph: the `_start_node` and
`_end_node` of a Python arrow object, as node identities.  Arrows reaching the
detector always have both endpoints set. -/
structure CDArrow where
  s : ℕ
  t : ℕ
deriving DecidableEq, Repr

/-- State threaded through the DFS: the per-node colour map
(`self.node_states`) and the accumulated list of cycles (`self.cycles`). -/
structure CDState where
  color : ℕ → NodeState
  cycles : List (List ℕ)

/-- Pointwise update of the colour map (`self.node_states[node] = c`). -/
def setColor (f : ℕ → NodeState) (n : ℕ) (c : NodeState) : ℕ → NodeState :=
  fun m => if m = n then c else f m

/-- `CycleDetector._build_adjacency_list`: the successors of `u`, in arrow
order, keeping only arrows whose both endpoints occur in `nodes`. -/
def buildAdjacencyList (nodes : List ℕ) (arrows : List CDArrow) : ℕ → List ℕ :=
  fun u =>
    (arrows.filter (fun a => decide (a.s = u ∧ a.s ∈ nodes ∧ a.t ∈ nodes))).map (·.t)

/-- `CycleDetector._dfs_visit`, with an explicit fuel for termination.  The
node is coloured gray and appended to the path; each gray neighbour emits the
cycle `current_path[path.index(nb):] + [nb]`, each white neighbour is visited
recursively; finally the node is coloured black (the Python pop of the shared
path list is implicit: the extended path never escapes the call). -/
def dfsVisit : ℕ → (ℕ → List ℕ) → ℕ → List ℕ → CDState → CDState
  | 0, _, _, _, st => st
  | fuel + 1, adj, node, path, st =>
    let st1 : CDState := ⟨setColor st.color node NodeState.GRAY, st.cycles⟩
    let path1 := path ++ [node]
    let st2 := (adj node).foldl
      (fun acc nb =>
        if acc.color nb = NodeState.GRAY then
          ⟨acc.color, acc.cycles ++ [path1.drop (path1.indexOf nb) ++ [nb]]⟩
        else if acc.color nb = NodeState.WHITE then
          dfsVisit fuel adj nb path1 acc
        else acc)
      st1
    ⟨setColor st2.color node NodeState.BLACK, st2.cycles⟩

/-- `CycleDetector.find_cycles`: initialise every node white, build the
adjacency list, run a DFS from every still-white node in `nodes` order, and
return the accumulated cycles.  `nodes.length` fuel bounds the recursion
depth, which in Python is the number of distinct gray nodes on the path. -/
def findCycles (nodes : List ℕ) (arrows : List CDArrow) : List (List ℕ) :=
  let adj := buildAdjacencyList nodes arrows
  let final := nodes.foldl
    (fun st node =>
      if st.color node = NodeState.WHITE then dfsVisit nodes.length adj node [] st
      else st)
    ⟨fun _ => NodeState.WHITE, []⟩
  final.cycles

/-- A genuine closed walk of the arrow set: length at least `2`, identical
first and last node, and every consecutive pair realised by an arrow. -/
def IsClosedWalk (arrows : List CDArrow) (c : List ℕ) : Prop :=
  2 ≤ c.length ∧ c.head? = c.getLast? ∧
    c.Chain' (fun u v => ∃ ar ∈ arrows, ar.s = u ∧ ar.t = v)

/-- Cycles are closed walks of the adjacency list: length at least `2`,
identical first and last node, consecutive pairs being adjacency edges. -/
def GoodCycle (adj : ℕ → List ℕ) (c : List ℕ) : Prop :=
  2 ≤ c.length ∧ c.head? = c.getLast? ∧ c.Chain' (fun u v => v ∈ adj u)

/-! ### Geometry primitives (`src/widget/arrow.py`) -/

/-- A 2-D point with exact rational coordinates (models `QPointF`). -/
structure Pt where
  x : ℚ
  y : ℚ
deriving DecidableEq, Repr, Inhabited

/-- Fueled integer square root (floor), structurally recursive so that it
reduces inside the kernel; 64 units of fuel cover every number below
`4 ^ 64`. -/
def isqrtFuel : ℕ → ℕ → ℕ
  | 0, _ => 0
  | fuel + 1, n =>
    if n = 0 then 0
    else
      let r := 2 * isqrtFuel fuel (n / 4)
      if (r + 1) * (r + 1) ≤ n then r + 1 else r

/-- A canonical computable stand-in for `math.sqrt` on rationals (a
floor-based under-approximation, exact on perfect squares).  All theorems
whose truth does not depend on square-root values are quantified over an
arbitrary `sq : ℚ → ℚ`; this function only instantiates them in concrete
witnesses. -/
def ratSqrt (q : ℚ) : ℚ :=
  if q ≤ 0 then 0 else (isqrtFuel 64 (q.num.toNat * q.den) : ℚ) / (q.den : ℚ)

/-- The segment geometry of an arrow as computed by `Arrow._get_arrow_line`:
node-centre to node-centre (the `'start'` and `'end'` entries of the returned
dict; the `'vector'` entry is derived). -/
structure Line where
  s : Pt
  e : Pt
deriving DecidableEq, Repr

/-- The `'vector'` entry of `_get_arrow_line`: `end_pos - start_pos`. -/
def Line.vector (l : Line) : Pt :=
  ⟨l.e.x - l.s.x, l.e.y - l.s.y⟩

/-- `Arrow._segments_overlap_in_projection`: either the two projected ranges
are nearly identical in position and length, or the projected overlap exceeds
the 10-unit threshold. -/
def segmentsOverlapInProjection (seg1Min seg1Max seg2Min seg2Max : ℚ) : Bool :=
  let overlapStart := max seg1Min seg2Min
  let overlapEnd := min seg1Max seg2Max
  let overlapLength := overlapEnd - overlapStart
  let segment1Length := |seg1Max - seg1Min|
  let segment2Length := |seg2Max - seg2Min|
  if |seg1Min - seg2Min| < 5 ∧ |seg1Max - seg2Max| < 5 ∧
      |segment1Length - segment2Length| < 10 then
    true
  else
    decide (overlapLength > 10)

/-- `Arrow._segments_close_enough_perpendicularly`: midpoints projected onto
the perpendicular of the reference direction differ by at most 50 units. -/
def segmentsCloseEnoughPerpendicularly (line1 line2 : Line)
    (refDirX refDirY : ℚ) : Bool :=
  let perpDirX := -refDirY
  let perpDirY := refDirX
  let line1MidX := (line1.s.x + line1.e.x) / 2
  let line1MidY := (line1.s.y + line1.e.y) / 2
  let line2MidX := (line2.s.x + line2.e.x) / 2
  let line2MidY := (line2.s.y + line2.e.y) / 2
  let line1PerpProj := line1MidX * perpDirX + line1MidY * perpDirY
  let line2PerpProj := line2MidX * perpDirX + line2MidY * perpDirY
  decide (|line1PerpProj - line2PerpProj| ≤ 50)

/-- `Arrow._lines_overlap`: project both segments onto the longer segment's
direction and test projected overlap plus perpendicular closeness.  `sq`
models `math.sqrt`. -/
def linesOverlap (sq : ℚ → ℚ) (line1 line2 : Line) : Bool :=
  let v1 := line1.vector
  let v2 := line2.vector
  let v1Len := sq (v1.x ^ 2 + v1.y ^ 2)
  let v2Len := sq (v2.x ^ 2 + v2.y ^ 2)
  if v1Len = 0 ∨ v2Len = 0 then false
  else
    let refDirX := if v1Len ≥ v2Len then v1.x / v1Len else v2.x / v2Len
    let refDirY := if v1Len ≥ v2Len then v1.y / v1Len else v2.y / v2Len
    let projectPoint := fun (p : Pt) => p.x * refDirX + p.y * refDirY
    let seg1StartProj := projectPoint line1.s
    let seg1EndProj := projectPoint line1.e
    let seg2StartProj := projectPoint line2.s
    let seg2EndProj := projectPoint line2.e
    let seg1Min := min seg1StartProj seg1EndProj
    let seg1Max := max seg1StartProj seg1EndProj
    let seg2Min := min seg2StartProj seg2EndProj
    let seg2Max := max seg2StartProj seg2EndProj
    if segmentsOverlapInProjection seg1Min seg1Max seg2Min seg2Max then
      segmentsCloseEnoughPerpendicularly line1 line2 refDirX refDirY
    else false

/-- `Arrow._lines_are_parallel_and_overlapping`: the two shared-endpoint
special cases (same or swapped endpoints within 1 unit) short-circuit to
`true`; then degenerate directions (computed length below `1e-6`) are
rejected, the cross-product parallelism test is applied with the relative
threshold `1e-3·|v1|·|v2|`, and finally the overlap test decides. -/
def linesParallelOverlapping (sq : ℚ → ℚ) (line1 line2 : Line) : Bool :=
  if |line1.s.x - line2.s.x| < 1 ∧ |line1.s.y - line2.s.y| < 1 ∧
      |line1.e.x - line2.e.x| < 1 ∧ |line1.e.y - line2.e.y| < 1 then
    true
  else if |line1.s.x - line2.e.x| < 1 ∧ |line1.s.y - line2.e.y| < 1 ∧
      |line1.e.x - line2.s.x| < 1 ∧ |line1.e.y - line2.s.y| < 1 then
    true
  else
    let v1 := line1.vector
    let v2 := line2.vector
    let v1Length := sq (v1.x ^ 2 + v1.y ^ 2)
    let v2Length := sq (v2.x ^ 2 + v2.y ^ 2)
    if v1Length < 1e-6 ∨ v2Length < 1e-6 then false
    else
      let crossProduct := |v1.x * v2.y - v1.y * v2.x|
      let parallelThreshold := 1e-3 * v1Length * v2Length
      if crossProduct > parallelThreshold then false
      else linesOverlap sq line1 line2

/-- `Arrow._line_segment_intersection` for segments `p1-p2` and `p3-p4`: a
near-zero determinant (below `1e-10`) means parallel (no intersection), and
only the boundary-segment parameter `u` is range-checked, as in the source. -/
def lineSegmentIntersection (p1 p2 p3 p4 : Pt) : Option Pt :=
  let denominator := (p1.x - p2.x) * (p3.y - p4.y) - (p1.y - p2.y) * (p3.x - p4.x)
  if |denominator| < 1e-10 then none
  else
    let t := ((p1.x - p3.x) * (p3.y - p4.y) - (p1.y - p3.y) * (p3.x - p4.x)) / denominator
    let u := -((p1.x - p2.x) * (p1.y - p3.y) - (p1.y - p2.y) * (p1.x - p3.x)) / denominator
    if 0 ≤ u ∧ u ≤ 1 then
      some ⟨p1.x + t * (p2.x - p1.x), p1.y + t * (p2.y - p1.y)⟩
    else none

/-- `Arrow._find_closest_point_on_boundary`: cast a ray of (scaled) length
1000 from `center` towards `targetCenter`, intersect it with every boundary
segment, keep the closest intersection lying in the forward direction, and
fall back to `center` when none qualifies.  The running minimum distance is
`none` for Python's initial `float('inf')`. -/
def findClosestPointOnBoundary (sq : ℚ → ℚ) (center targetCenter : Pt)
    (lineSegments : List (Pt × Pt)) : Pt :=
  let dx := targetCenter.x - center.x
  let dy := targetCenter.y - center.y
  let length := sq (dx * dx + dy * dy)
  if length = 0 then center
  else
    let dxNorm := dx / length
    let dyNorm := dy / length
    let result := lineSegments.foldl
      (fun (acc : Pt × Option ℚ) seg =>
        match lineSegmentIntersection center
            ⟨center.x + dxNorm * 1000, center.y + dyNorm * 1000⟩ seg.1 seg.2 with
        | none => acc
        | some intersection =>
          let toIntersectionX := intersection.x - center.x
          let toIntersectionY := intersection.y - center.y
          let dotProduct := toIntersectionX * dxNorm + toIntersectionY * dyNorm
          if dotProduct > 0 then
            let distance := sq (toIntersectionX ^ 2 + toIntersectionY ^ 2)
            match acc.2 with
            | none => (intersection, some distance)
            | some minDistance =>
              if distance < minDistance then (intersection, some distance) else acc
          else acc)
      (center, (none : Option ℚ))
    result.1

/-- `Arrow._get_edge_intersection`.  The rounded-rectangle outline is produced
in the source by Qt path flattening (`_get_rounded_rect_segments` calls
`QPainterPath.addRoundedRect` and `toFillPolygon`, library code external to
this repository); it is modelled as the explicit `lineSegments` argument, so
the theorems hold for every tessellation of the outline. -/
def getEdgeIntersection (sq : ℚ → ℚ) (center targetCenter : Pt)
    (lineSegments : List (Pt × Pt)) : Pt :=
  let dx := targetCenter.x - center.x
  let dy := targetCenter.y - center.y
  if |dx| < 0.001 ∧ |dy| < 0.001 then center
  else findClosestPointOnBoundary sq center targetCenter lineSegments

/-! ### Self-loop placement (`Arrow._update_self_loop_position`,
`Arrow._find_best_loop_side`) -/

/-- A side of a node's bounding box. -/
inductive Side where
  | top
  | bottom
  | left
  | right
deriving DecidableEq, Repr

/-- The geometry fields written by `Arrow._update_self_loop_position`. -/
structure LoopGeom where
  startPt : Pt
  endPt : Pt
  loopCenter : Pt
  loopRadius : ℚ
deriving DecidableEq, Repr

/-- Geometry part of `Arrow._update_self_loop_position`, given the chosen
side, the node position `(cx, cy)` and its bounding-rectangle size `w × h`
(the `Object` bounding rectangle is centred on the node position, so the
position is the centre). -/
def updateSelfLoopGeom (cx cy w h : ℚ) (bestSide : Side) : LoopGeom :=
  let loopRadius := max w h * 0.6
  let halfWidth := w / 2
  let halfHeight := h / 2
  match bestSide with
  | Side.top =>
    let edgeY := cy - halfHeight
    ⟨⟨cx - 10, edgeY⟩, ⟨cx + 10, edgeY⟩, ⟨cx, edgeY - loopRadius⟩, loopRadius⟩
  | Side.bottom =>
    let edgeY := cy + halfHeight
    ⟨⟨cx - 10, edgeY⟩, ⟨cx + 10, edgeY⟩, ⟨cx, edgeY + loopRadius⟩, loopRadius⟩
  | Side.left =>
    let edgeX := cx - halfWidth
    ⟨⟨edgeX, cy - 10⟩, ⟨edgeX, cy + 10⟩, ⟨edgeX - loopRadius, cy⟩, loopRadius⟩
  | Side.right =>
    let edgeX := cx + halfWidth
    ⟨⟨edgeX, cy - 10⟩, ⟨edgeX, cy + 10⟩, ⟨edgeX + loopRadius, cy⟩, loopRadius⟩

/-- The midpoint of the chosen edge of the node's bounding box. -/
def edgeMidpoint (cx cy w h : ℚ) : Side → Pt
  | Side.top => ⟨cx, cy - h / 2⟩
  | Side.bottom => ⟨cx, cy + h / 2⟩
  | Side.left => ⟨cx - w / 2, cy⟩
  | Side.right => ⟨cx + w / 2, cy⟩

/-! ### Scene state machine (`src/widget/arrow.py`, `src/widget/node.py`,
`src/widget/object_node.py`) -/

/-- A diagram node (`Object`): identity `nid` (Python object identity),
position `(cx, cy)` — the centre, since `Object.boundingRect` is centred on
the origin — and bounding-rectangle size `w × h`. -/
structure DNode where
  nid : ℕ
  cx : ℚ
  cy : ℚ
  w : ℚ
  h : ℚ
deriving DecidableEq, Repr

/-- The state of an `Arrow`: identity `aid` (models `id(self)`, the source's
sort key), endpoint node identities, and the geometry fields written by the
engine (`_start_point`, `_end_point`, `_is_self_loop`, `_loop_center`,
`_loop_radius`, `_is_curved`, `_curve_offset`, `_control_point_1`,
`_control_point_2`, `_curve_direction`), initialised as in `Arrow.__init__`
by `initArrow`. -/
structure ArrowState where
  aid : ℕ
  startNode : ℕ
  endNode : ℕ
  startPt : Pt
  endPt : Pt
  isSelfLoop : Bool
  loopCenter : Pt
  loopRadius : ℚ
  isCurved : Bool
  curveOffset : ℚ
  controlPoint1 : Pt
  controlPoint2 : Pt
  curveDirection : Option (ℚ × ℚ)
deriving DecidableEq, Repr, Inhabited

/-- Field values set in `Arrow.__init__`. -/
def initArrow (aid startNode endNode : ℕ) : ArrowState :=
  { aid := aid
    startNode := startNode
    endNode := endNode
    startPt := ⟨0, 0⟩
    endPt := ⟨100, 0⟩
    isSelfLoop := false
    loopCenter := ⟨0, 0⟩
    loopRadius := 50
    isCurved := false
    curveOffset := 0
    controlPoint1 := ⟨0, 0⟩
    controlPoint2 := ⟨0, 0⟩
    curveDirection := none }

/-- The scene contents relevant to the engine: the `Object` nodes and the
`Arrow`s. -/
structure Scene where
  nodes : List DNode
  arrows : List ArrowState
deriving DecidableEq, Repr

/-- Dereference a node identity (Python arrows hold direct object
references). -/
def getNode (sc : Scene) (i : ℕ) : DNode :=
  (sc.nodes.find? (fun m => m.nid == i)).getD ⟨i, 0, 0, 0, 0⟩

/-- `Arrow._get_arrow_line`: node centre to node centre (`pos() +
boundingRect().center()`, and the `Object` bounding rectangle is centred on
the origin). -/
def arrowLine (sc : Scene) (a : ArrowState) : Line :=
  ⟨⟨(getNode sc a.startNode).cx, (getNode sc a.startNode).cy⟩,
   ⟨(getNode sc a.endNode).cx, (getNode sc a.endNode).cy⟩⟩

/-- `Arrow._find_parallel_arrows`: every other arrow of the scene whose
centre-to-centre segment is parallel-and-overlapping with this one
(`item != self` modelled by the identity key). -/
def findParallelArrows (sq : ℚ → ℚ) (sc : Scene) (a : ArrowState) :
    List ArrowState :=
  sc.arrows.filter (fun o =>
    decide (o.aid ≠ a.aid) &&
      linesParallelOverlapping sq (arrowLine sc a) (arrowLine sc o))

/-- Shared endpoints in either order: the condition building
`same_endpoints_arrows` in `_update_curve_positioning` (node object equality
is identity, modelled by `nid`). -/
def sameEnds (a o : ArrowState) : Prop :=
  (a.startNode = o.startNode ∧ a.endNode = o.endNode) ∨
    (a.startNode = o.endNode ∧ a.endNode = o.startNode)

instance (a o : ArrowState) : Decidable (sameEnds a o) := by
  unfold sameEnds; infer_instance

/-- Sorting by the stable identity key: models Python
`sort(key=lambda x: id(x))` (the spec replaces the memory address by a
stable creation-order id; any sort gives the same result on distinct keys). -/
def sortByAid (l : List ArrowState) : List ArrowState :=
  List.insertionSort (fun u v : ArrowState => u.aid ≤ v.aid) l

/-- `Arrow._get_direction_factor`: `vector.x + vector.y * 1000`. -/
def directionFactor (sc : Scene) (a : ArrowState) : ℚ :=
  (arrowLine sc a).vector.x + (arrowLine sc a).vector.y * 1000

/-- `Arrow._arrows_point_opposite_directions`: negative dot product of the
two direction vectors. -/
def arrowsPointOppositeDirections (sc : Scene) (a o : ArrowState) : Bool :=
  let myVector := (arrowLine sc a).vector
  let otherVector := (arrowLine sc o).vector
  decide (myVector.x * otherVector.x + myVector.y * otherVector.y < 0)

/-- `Arrow._arrows_would_visually_overlap`: some member is
parallel-and-overlapping and its midpoint lies within the 6-unit visual
thickness measured perpendicular to this arrow's direction (a zero computed
direction length skips the member, as `continue` does). -/
def arrowsWouldVisuallyOverlap (sq : ℚ → ℚ) (sc : Scene) (a : ArrowState)
    (others : List ArrowState) : Bool :=
  let myLine := arrowLine sc a
  others.any (fun o =>
    let otherLine := arrowLine sc o
    if linesParallelOverlapping sq myLine otherLine then
      let myMidX := (myLine.s.x + myLine.e.x) / 2
      let myMidY := (myLine.s.y + myLine.e.y) / 2
      let otherMidX := (otherLine.s.x + otherLine.e.x) / 2
      let otherMidY := (otherLine.s.y + otherLine.e.y) / 2
      let direction := myLine.vector
      let directionLength := sq (direction.x ^ 2 + direction.y ^ 2)
      if directionLength = 0 then false
      else
        let perpX := -direction.y / directionLength
        let perpY := direction.x / directionLength
        let midDiffX := otherMidX - myMidX
        let midDiffY := otherMidY - myMidY
        decide (|midDiffX * perpX + midDiffY * perpY| < 6)
    else false)

/-- `Arrow._calculate_bezier_control_points`: place the control points at the
parametric positions `0.3` and `0.7` along the straight start-to-end vector,
each shifted by the stored (or freshly computed) perpendicular scaled by the
curve offset. -/
def calculateBezierControlPoints (sq : ℚ → ℚ) (a : ArrowState) : ArrowState :=
  if !a.isCurved then a
  else
    let pd :=
      match a.curveDirection with
      | some d => d
      | none =>
        let dx := a.endPt.x - a.startPt.x
        let dy := a.endPt.y - a.startPt.y
        let perpDx := -dy
        let perpDy := dx
        let length := sq (perpDx ^ 2 + perpDy ^ 2)
        if length > 0 then (perpDx / length, perpDy / length) else (perpDx, perpDy)
    let offsetX := pd.1 * a.curveOffset
    let offsetY := pd.2 * a.curveOffset
    let dx := a.endPt.x - a.startPt.x
    let dy := a.endPt.y - a.startPt.y
    let t1 : ℚ := 0.3
    let t2 : ℚ := 0.7
    { a with
      controlPoint1 := ⟨a.startPt.x + t1 * dx + offsetX, a.startPt.y + t1 * dy + offsetY⟩
      controlPoint2 := ⟨a.startPt.x + t2 * dx + offsetX, a.startPt.y + t2 * dy + offsetY⟩ }

/-- `Arrow._update_curve_positioning`, the curve assigner. -/
def updateCurvePositioning (sq : ℚ → ℚ) (sc : Scene) (a : ArrowState) : ArrowState :=
  let parallelArrows := findParallelArrows sq sc a
  if parallelArrows.isEmpty then
    { a with isCurved := false, curveOffset := 0 }
  else
    let a1 := { a with isCurved := true }
    let allArrows := sortByAid (a :: parallelArrows)
    let arrowIndex := allArrows.indexOf a
    let totalArrows := allArrows.length
    let baseOffset : ℚ := 30
    let sameEndpointsArrows := parallelArrows.filter (fun o => decide (sameEnds a o))
    if !sameEndpointsArrows.isEmpty then
      let sameEndpointsGroup := sortByAid (a :: sameEndpointsArrows)
      let myIndex := sameEndpointsGroup.indexOf a
      let a2 :=
        if sameEndpointsGroup.length = 2 then
          { a1 with curveOffset := if myIndex = 0 then baseOffset else -baseOffset }
        else
          let centerIndex := ((sameEndpointsGroup.length : ℚ) - 1) / 2
          { a1 with curveOffset := ((myIndex : ℚ) - centerIndex) * baseOffset }
      calculateBezierControlPoints sq { a2 with curveDirection := none }
    else
      let nonSameEndpointArrows := parallelArrows.filter (fun o => !(decide (sameEnds a o)))
      if !arrowsWouldVisuallyOverlap sq sc a nonSameEndpointArrows then
        { a1 with isCurved := false, curveOffset := 0 }
      else
        let myVector := (arrowLine sc a).vector
        let sameDirectionGroup := nonSameEndpointArrows.all (fun o =>
          let otherVector := (arrowLine sc o).vector
          !(decide (myVector.x * otherVector.x + myVector.y * otherVector.y < 0)))
        if sameDirectionGroup then
          let directionVector := (arrowLine sc a).vector
          let perpX := -directionVector.y
          let perpY := directionVector.x
          let perpLength := sq (perpX * perpX + perpY * perpY)
          let pd := if perpLength > 0 then (perpX / perpLength, perpY / perpLength)
            else (perpX, perpY)
          let offsetDistance := baseOffset * ((arrowIndex : ℚ) + 1)
          calculateBezierControlPoints sq
            { a1 with curveOffset := offsetDistance, curveDirection := some pd }
        else
          let a2 :=
            if totalArrows = 2 then
              match parallelArrows with
              | other :: _ =>
                if arrowsPointOppositeDirections sc a other then
                  if directionFactor sc a > directionFactor sc other then
                    { a1 with curveOffset := baseOffset }
                  else
                    { a1 with curveOffset := -baseOffset }
                else
                  { a1 with curveOffset := if arrowIndex = 0 then baseOffset else -baseOffset }
              | [] => a1
            else
              let centerIndex := ((totalArrows : ℚ) - 1) / 2
              let offsetMultiplier := (arrowIndex : ℚ) - centerIndex
              let offsetMultiplier :=
                if directionFactor sc a < 0 then -offsetMultiplier else offsetMultiplier
              { a1 with curveOffset := offsetMultiplier * baseOffset }
          calculateBezierControlPoints sq { a2 with curveDirection := none }

/-- `Arrow._update_normal_arrow_position`: anchor both endpoints on the node
outlines; `outline` supplies each node's tessellated boundary (Qt path
flattening, external to the repository). -/
def updateNormalArrowPosition (sq : ℚ → ℚ) (outline : DNode → List (Pt × Pt))
    (sc : Scene) (a : ArrowState) : ArrowState :=
  let startNode := getNode sc a.startNode
  let endNode := getNode sc a.endNode
  let startCenter : Pt := ⟨startNode.cx, startNode.cy⟩
  let endCenter : Pt := ⟨endNode.cx, endNode.cy⟩
  { a with
    startPt := getEdgeIntersection sq startCenter endCenter (outline startNode)
    endPt := getEdgeIntersection sq endCenter startCenter (outline endNode) }

/-- An axis-aligned rectangle `(x, y, w, h)` (models `QRectF`). -/
structure Rect where
  x : ℚ
  y : ℚ
  w : ℚ
  h : ℚ
deriving DecidableEq, Repr

/-- Overlap with nonempty interior: the intersection test of
`QGraphicsScene.items(QRectF)` (Qt library, external to the repository) on
items whose shape is the default bounding-rectangle path. -/
def Rect.overlaps (r1 r2 : Rect) : Bool :=
  decide (r1.x < r2.x + r2.w ∧ r2.x < r1.x + r1.w ∧
    r1.y < r2.y + r2.h ∧ r2.y < r1.y + r1.h)

/-- Bounding rectangle of a node item (`Object.boundingRect`, centred on the
node position). -/
def nodeBoundingRect (n : DNode) : Rect :=
  ⟨n.cx - n.w / 2, n.cy - n.h / 2, n.w, n.h⟩

/-- `Arrow.boundingRect`: all covered points extended by
`extra = arrow_head_size + pen_width/2 = 7 + 2/2`; self-loops use the loop
circle, curved arrows include the two control points, straight arrows the two
anchor points. -/
def arrowBoundingRect (a : ArrowState) : Rect :=
  let extra : ℚ := 7 + 2 / 2
  if a.isSelfLoop then
    let minX := a.loopCenter.x - a.loopRadius - extra
    let maxX := a.loopCenter.x + a.loopRadius + extra
    let minY := a.loopCenter.y - a.loopRadius - extra
    let maxY := a.loopCenter.y + a.loopRadius + extra
    ⟨minX, minY, maxX - minX, maxY - minY⟩
  else if a.isCurved then
    let minX := min (min a.startPt.x a.endPt.x) (min a.controlPoint1.x a.controlPoint2.x) - extra
    let maxX := max (max a.startPt.x a.endPt.x) (max a.controlPoint1.x a.controlPoint2.x) + extra
    let minY := min (min a.startPt.y a.endPt.y) (min a.controlPoint1.y a.controlPoint2.y) - extra
    let maxY := max (max a.startPt.y a.endPt.y) (max a.controlPoint1.y a.controlPoint2.y) + extra
    ⟨minX, minY, maxX - minX, maxY - minY⟩
  else
    let minX := min a.startPt.x a.endPt.x - extra
    let maxX := max a.startPt.x a.endPt.x + extra
    let minY := min a.startPt.y a.endPt.y - extra
    let maxY := max a.startPt.y a.endPt.y + extra
    ⟨minX, minY, maxX - minX, maxY - minY⟩

/-- Occupancy of a probe area in `_find_best_loop_side`: the number of scene
items other than the node itself that expose `get_text` and intersect the
area.  Both `Object` nodes and `Arrow`s define `get_text`, so arrows are
counted too. -/
def sideScore (sc : Scene) (selfNode : ℕ) (area : Rect) : ℕ :=
  (sc.nodes.filter (fun m =>
    decide (m.nid ≠ selfNode) && (nodeBoundingRect m).overlaps area)).length +
  (sc.arrows.filter (fun o => (arrowBoundingRect o).overlaps area)).length

/-- Python `min(side_scores, key=side_scores.get)`: the first entry with the
minimal value, in dict insertion order. -/
def pickMinSide : List (Side × ℕ) → Side
  | [] => Side.top
  | (s0, v0) :: rest =>
    (rest.foldl (fun best cur => if cur.2 < best.2 then cur else best) (s0, v0)).1

/-- `Arrow._find_best_loop_side`: probe rectangles scaled by 1.5× the larger
node dimension, occupancy scores, first minimum in the order
top, bottom, left, right. -/
def findBestLoopSide (sc : Scene) (a : ArrowState) : Side :=
  let node := getNode sc a.startNode
  let checkDistance := max node.w node.h * 1.5
  let topArea : Rect := ⟨node.cx - checkDistance / 2, node.cy - checkDistance,
    node.w + checkDistance, checkDistance⟩
  let bottomArea : Rect := ⟨node.cx - checkDistance / 2, node.cy + node.h,
    node.w + checkDistance, checkDistance⟩
  let leftArea : Rect := ⟨node.cx - checkDistance, node.cy - checkDistance / 2,
    checkDistance, node.h + checkDistance⟩
  let rightArea : Rect := ⟨node.cx + node.w, node.cy - checkDistance / 2,
    checkDistance, node.h + checkDistance⟩
  pickMinSide
    [(Side.top, sideScore sc a.startNode topArea),
     (Side.bottom, sideScore sc a.startNode bottomArea),
     (Side.left, sideScore sc a.startNode leftArea),
     (Side.right, sideScore sc a.startNode rightArea)]

/-- `Arrow._update_self_loop_position`: choose the best side and write the
loop geometry plus `is_self_loop := true` (the `_is_curved` flag is not
touched by this code path). -/
def updateSelfLoopPosition (sc : Scene) (a : ArrowState) : ArrowState :=
  let node := getNode sc a.startNode
  let bestSide := findBestLoopSide sc a
  let g := updateSelfLoopGeom node.cx node.cy node.w node.h bestSide
  { a with
    startPt := g.startPt
    endPt := g.endPt
    loopCenter := g.loopCenter
    loopRadius := g.loopRadius
    isSelfLoop := true }

/-- `Arrow.update_position` for arrows with both endpoints set: self-loops go
through `updateSelfLoopPosition`, other arrows recompute anchors and then
curve positioning. -/
def updatePosition (sq : ℚ → ℚ) (outline : DNode → List (Pt × Pt))
    (sc : Scene) (a : ArrowState) : ArrowState :=
  if a.startNode = a.endNode then updateSelfLoopPosition sc a
  else updateCurvePositioning sq sc (updateNormalArrowPosition sq outline sc a)

/-- `Arrow.set_nodes` followed by the `update_position` call it performs. -/
def setNodes (sq : ℚ → ℚ) (outline : DNode → List (Pt × Pt)) (sc : Scene)
    (a : ArrowState) (startNode endNode : ℕ) : ArrowState :=
  updatePosition sq outline sc { a with startNode := startNode, endNode := endNode }

/-- One full recompute pass: `update_position` on every arrow of the scene in
order, each update seeing the partially updated scene (the sequential signal
dispatch of the host). -/
def recomputePass (sq : ℚ → ℚ) (outline : DNode → List (Pt × Pt)) (sc : Scene) :
    Scene :=
  (List.range sc.arrows.length).foldl
    (fun acc i =>
      match acc.arrows.get? i with
      | some a => { acc with arrows := acc.arrows.set i (updatePosition sq outline acc a) }
      | none => acc)
    sc

/-- The normalised ray direction used by `_find_closest_point_on_boundary`:
`(dx/length, dy/length)` with `length = sq(dx*dx + dy*dy)` (only meaningful
when `length` is nonzero, exactly as in the source). -/
def rayDir (sq : ℚ → ℚ) (center targetCenter : Pt) : Pt :=
  let dx := targetCenter.x - center.x
  let dy := targetCenter.y - center.y
  let length := sq (dx * dx + dy * dy)
  ⟨dx / length, dy / length⟩

/-- An accepted boundary hit of the ray cast in
`_find_closest_point_on_boundary`: the 1000-scaled ray from `center` meets
the boundary segment at `p`, and `p` lies in the forward direction. -/
def AcceptedHit (sq : ℚ → ℚ) (center targetCenter : Pt) (seg : Pt × Pt)
    (p : Pt) : Prop :=
  lineSegmentIntersection center
      ⟨center.x + (rayDir sq center targetCenter).x * 1000,
       center.y + (rayDir sq center targetCenter).y * 1000⟩ seg.1 seg.2 = some p ∧
    (p.x - center.x) * (rayDir sq center targetCenter).x +
      (p.y - center.y) * (rayDir sq center targetCenter).y > 0

/-- The occupancy score of one side's probe rectangle, as computed inside
`_find_best_loop_side` (same probe rectangles, in the same positions). -/
def loopSideScore (sc : Scene) (a : ArrowState) (side : Side) : ℕ :=
  let node := getNode sc a.startNode
  let checkDistance := max node.w node.h * 1.5
  let area : Rect :=
    match side with
    | Side.top => ⟨node.cx - checkDistance / 2, node.cy - checkDistance,
        node.w + checkDistance, checkDistance⟩
    | Side.bottom => ⟨node.cx - checkDistance / 2, node.cy + node.h,
        node.w + checkDistance, checkDistance⟩
    | Side.left => ⟨node.cx - checkDistance, node.cy - checkDistance / 2,
        checkDistance, node.h + checkDistance⟩
    | Side.right => ⟨node.cx + node.w, node.cy - checkDistance / 2,
        checkDistance, node.h + checkDistance⟩
  sideScore sc a.startNode area

/-- The duplicate family of an arrow: the scene arrows sharing its endpoints
in either order (the arrow itself included), sorted by the identity key. -/
def sameEndsGroup (sc : Scene) (a : ArrowState) : List ArrowState :=
  sortByAid (sc.arrows.filter (fun o => decide (sameEnds a o)))

/-- A nonempty suffix keeps the last element of the list. -/
theorem getLast?_drop_of_ne_nil {l : List ℕ} {i : ℕ} (h : l.drop i ≠ []) :
    (l.drop i).getLast? = l.getLast? := by
  conv_rhs => rw [← List.take_append_drop i l]
  rw [List.getLast?_append_of_ne_nil _ h]

/-- Invariant of `dfsVisit`: if the extended path is an adjacency chain, every
gray node lies on the path, and all recorded cycles are good, then the call
creates no new gray node and every recorded cycle is still good. -/
theorem dfsVisit_spec (adj : ℕ → List ℕ) :
    ∀ (fuel node : ℕ) (path : List ℕ) (st : CDState),
      List.Chain' (fun u v => v ∈ adj u) (path ++ [node]) →
      (∀ x, st.color x = NodeState.GRAY → x ∈ path) →
      (∀ c ∈ st.cycles, GoodCycle adj c) →
      (∀ x, (dfsVisit fuel adj node path st).color x = NodeState.GRAY →
          st.color x = NodeState.GRAY) ∧
      (∀ c ∈ (dfsVisit fuel adj node path st).cycles, GoodCycle adj c) := by
  intro fuel
  induction fuel with
  | zero => intro node path st _ _ hcyc; exact ⟨fun x hx => hx, hcyc⟩
  | succ fuel ih =>
    intro node path st hchain hgray hcyc
    simp only [dfsVisit]
    set st1 : CDState := ⟨setColor st.color node NodeState.GRAY, st.cycles⟩ with hst1
    set path1 := path ++ [node] with hpath1
    -- every gray node of `st1` lies on the extended path
    have hgray1 : ∀ x, st1.color x = NodeState.GRAY → x ∈ path1 := by
      intro x hx
      by_cases hxn : x = node
      · subst hxn; exact List.mem_append_right _ (List.mem_singleton.mpr rfl)
      · have : st.color x = NodeState.GRAY := by
          simpa [hst1, setColor, hxn] using hx
        exact List.mem_append_left _ (hgray x this)
    have hlast1 : path1.getLast? = some node := by
      rw [hpath1, List.getLast?_append_of_ne_nil _ (by simp)]; rfl
    -- fold invariant over the neighbour list
    have main :
        ∀ st2, st2 = (adj node).foldl
            (fun acc nb =>
              if acc.color nb = NodeState.GRAY then
                ⟨acc.color, acc.cycles ++ [path1.drop (path1.indexOf nb) ++ [nb]]⟩
              else if acc.color nb = NodeState.WHITE then
                dfsVisit fuel adj nb path1 acc
              else acc)
            st1 →
        (∀ x, st2.color x = NodeState.GRAY → st1.color x = NodeState.GRAY) ∧
        (∀ c ∈ st2.cycles, GoodCycle adj c) := by
      intro st2 hst2
      subst hst2
      refine List.foldlRecOn
        (motive := fun st2 => (∀ x, st2.color x = NodeState.GRAY →
            st1.color x = NodeState.GRAY) ∧ (∀ c ∈ st2.cycles, GoodCycle adj c))
        (adj node) _ st1 ⟨fun x hx => hx, hcyc⟩ ?_
      rintro acc ⟨haccg, hacccyc⟩ nb hnb
      by_cases hg : acc.color nb = NodeState.GRAY
      · -- back edge: emit a cycle
        simp only [hg, if_pos rfl]
        refine ⟨haccg, ?_⟩
        intro c hc
        rcases List.mem_append.mp hc with hc | hc
        · exact hacccyc c hc
        · have hceq : c = path1.drop (path1.indexOf nb) ++ [nb] :=
            List.mem_singleton.mp hc
          subst hceq
          have hmem : nb ∈ path1 := hgray1 nb (haccg nb hg)
          have hidx : path1.indexOf nb < path1.length :=
            List.indexOf_lt_length.mpr hmem
          have hdropne : path1.drop (path1.indexOf nb) ≠ [] := by
            intro hnil
            have := List.drop_eq_nil_iff.mp hnil
            omega
          refine ⟨?_, ?_, ?_⟩
          · have : 1 ≤ (path1.drop (path1.indexOf nb)).length := by
              rcases List.exists_cons_of_ne_nil hdropne with ⟨y, ys, hy⟩
              simp [hy]
            simp only [List.length_append, List.length_singleton]
            omega
          · have hhead : (path1.drop (path1.indexOf nb)).head? = some nb := by
              rw [List.head?_drop]
              rw [List.getElem?_eq_getElem hidx]
              have := List.indexOf_get (a := nb) (l := path1) hidx
              rw [List.get_eq_getElem] at this
              exact congrArg some this
            rw [List.head?_append_of_ne_nil _ hdropne]
            rw [hhead, List.getLast?_append_of_ne_nil _ (by simp)]
            rfl
          · refine List.chain'_append.mpr ⟨?_, List.chain'_singleton nb, ?_⟩
            · exact (hchain.drop _)
            · intro x hx y hy
              have hy' : nb = y := by simpa using hy
              have hx' : node = x := by
                rw [getLast?_drop_of_ne_nil hdropne, hlast1] at hx
                simpa using hx
              subst hx'; subst hy'; exact hnb
      · by_cases hw : acc.color nb = NodeState.WHITE
        · -- white neighbour: recurse
          simp only [hg, hw, if_neg, if_pos rfl, ite_false]
          have hchain1 : List.Chain' (fun u v => v ∈ adj u) (path1 ++ [nb]) := by
            refine List.chain'_append.mpr ⟨hchain, List.chain'_singleton nb, ?_⟩
            intro x hx y hy
            have hy' : nb = y := by simpa using hy
            have hx' : node = x := by rw [hlast1] at hx; simpa using hx
            subst hx'; subst hy'; exact hnb
          have hgacc : ∀ x, acc.color x = NodeState.GRAY → x ∈ path1 :=
            fun x hx => hgray1 x (haccg x hx)
          obtain ⟨h1, h2⟩ := ih nb path1 acc hchain1 hgacc hacccyc
          exact ⟨fun x hx => haccg x (h1 x hx), h2⟩
        · simp only [hg, hw, ite_false]
          exact ⟨haccg, hacccyc⟩
    obtain ⟨h1, h2⟩ := main _ rfl
    constructor
    · intro x hx
      simp only [setColor] at hx
      by_cases hxn : x = node
      · simp [hxn] at hx
      · rw [if_neg hxn] at hx
        have := h1 x hx
        simpa [hst1, setColor, hxn] using this
    · exact h2

/-- Edges of the adjacency list come from arrows of the input. -/
theorem mem_buildAdjacencyList {nodes : List ℕ} {arrows : List CDArrow} {u v : ℕ}
    (h : v ∈ buildAdjacencyList nodes arrows u) :
    ∃ ar ∈ arrows, ar.s = u ∧ ar.t = v := by
  simp only [buildAdjacencyList, List.mem_map, List.mem_filter,
    decide_eq_true_eq] at h
  obtain ⟨ar, ⟨har, hs, _, _⟩, ht⟩ := h
  exact ⟨ar, har, hs, ht⟩

/-- C10: every cycle returned by `find_cycles` is a genuine closed walk of the
input: length at least `2`, equal first and last node, and every consecutive
pair realised by an arrow of the input whose source and target match. -/
theorem findCycles_closed_walks (nodes : List ℕ) (arrows : List CDArrow) :
    ∀ c ∈ findCycles nodes arrows, IsClosedWalk arrows c := by
  intro c hc
  unfold findCycles at hc
  set adj := buildAdjacencyList nodes arrows with hadj
  have main :
      ∀ st : CDState, st = nodes.foldl
          (fun st node =>
            if st.color node = NodeState.WHITE then
              dfsVisit nodes.length adj node [] st
            else st)
          ⟨fun _ => NodeState.WHITE, []⟩ →
      (∀ x, st.color x ≠ NodeState.GRAY) ∧ (∀ c ∈ st.cycles, GoodCycle adj c) := by
    intro st hst
    subst hst
    refine List.foldlRecOn
      (motive := fun st => (∀ x, st.color x ≠ NodeState.GRAY) ∧
          (∀ c ∈ st.cycles, GoodCycle adj c))
      nodes _ (⟨fun _ => NodeState.WHITE, []⟩ : CDState) ?_ ?_
    · exact ⟨fun x h => by exact absurd h (by simp), by simp⟩
    rintro acc ⟨hng, hcyc⟩ node _
    by_cases hw : acc.color node = NodeState.WHITE
    · rw [if_pos hw]
      obtain ⟨h1, h2⟩ := dfsVisit_spec adj nodes.length node [] acc
        (by simp)
        (fun x hx => absurd hx (hng x)) hcyc
      exact ⟨fun x hx => hng x (h1 x hx), h2⟩
    · rw [if_neg hw]; exact ⟨hng, hcyc⟩
  obtain ⟨_, hgood⟩ := main _ rfl
  obtain ⟨hl, hh, hch⟩ := hgood c hc
  exact ⟨hl, hh, hch.imp fun _ _ hx => mem_buildAdjacencyList hx⟩

/-- Witness for C10: the cycle found on the three-node reference graph is a
closed walk of that graph. -/
theorem findCycles_closed_walks_witness :
    IsClosedWalk [⟨0, 1⟩, ⟨1, 2⟩, ⟨2, 0⟩] [0, 1, 2, 0] :=
  findCycles_closed_walks [0, 1, 2] [⟨0, 1⟩, ⟨1, 2⟩, ⟨2, 0⟩] [0, 1, 2, 0] (by decide)

/-- C1: `find_cycles` on the spec's reference graphs.  On nodes `{A,B,C}`
(as `0,1,2`) with arrows `A→B, B→C, C→A` it returns exactly the single cycle
`[A,B,C,A]` (so in particular at least one cycle reading `[A,B,C,A]`
cyclically); with only `A→B, B→C` it returns `[]`; and on the empty graph it
returns `[]`. -/
theorem findCycles_reference_graphs :
    findCycles [0, 1, 2] [⟨0, 1⟩, ⟨1, 2⟩, ⟨2, 0⟩] = [[0, 1, 2, 0]] ∧
    ([0, 1, 2, 0] ∈ findCycles [0, 1, 2] [⟨0, 1⟩, ⟨1, 2⟩, ⟨2, 0⟩]) ∧
    findCycles [0, 1, 2] [⟨0, 1⟩, ⟨1, 2⟩] = [] ∧
    findCycles [] [] = [] := by
  refine ⟨by decide, ?_, by decide, by decide⟩
  have h : findCycles [0, 1, 2] [⟨0, 1⟩, ⟨1, 2⟩, ⟨2, 0⟩] = [[0, 1, 2, 0]] := by decide
  rw [h]; exact List.mem_singleton.mpr rfl

/-! ### Theorems about self-loop geometry (C2) -/

/-- C2 (counterexample): on a 100×100 node with the loop on top, the start
and end points computed by `_update_self_loop_position` are 20 units apart —
each 10 units from the edge midpoint — so the claim's "two points 10 units
apart" is false at this input (their squared distance is `400`, not
`10² = 100`). -/
theorem selfLoop_gap_counterexample :
    (updateSelfLoopGeom 0 0 100 100 Side.top).loopRadius = 0.6 * max 100 100 ∧
    ((updateSelfLoopGeom 0 0 100 100 Side.top).endPt.x -
        (updateSelfLoopGeom 0 0 100 100 Side.top).startPt.x) ^ 2 +
      ((updateSelfLoopGeom 0 0 100 100 Side.top).endPt.y -
        (updateSelfLoopGeom 0 0 100 100 Side.top).startPt.y) ^ 2 = 400 ∧
    ¬ (((updateSelfLoopGeom 0 0 100 100 Side.top).endPt.x -
        (updateSelfLoopGeom 0 0 100 100 Side.top).startPt.x) ^ 2 +
      ((updateSelfLoopGeom 0 0 100 100 Side.top).endPt.y -
        (updateSelfLoopGeom 0 0 100 100 Side.top).startPt.y) ^ 2 = 10 ^ 2) := by
  norm_num [updateSelfLoopGeom]

/-- C2 (amended): for every node and chosen side, `loop_radius = 0.6 ×
max(width, height)`, and the start and end points straddle the chosen edge's
midpoint symmetrically at 10 units each — hence 20 units apart. -/
theorem selfLoop_geometry (cx cy w h : ℚ) (side : Side) :
    (updateSelfLoopGeom cx cy w h side).loopRadius = 0.6 * max w h ∧
    (updateSelfLoopGeom cx cy w h side).startPt.x +
        (updateSelfLoopGeom cx cy w h side).endPt.x =
      2 * (edgeMidpoint cx cy w h side).x ∧
    (updateSelfLoopGeom cx cy w h side).startPt.y +
        (updateSelfLoopGeom cx cy w h side).endPt.y =
      2 * (edgeMidpoint cx cy w h side).y ∧
    ((updateSelfLoopGeom cx cy w h side).endPt.x -
        (updateSelfLoopGeom cx cy w h side).startPt.x) ^ 2 +
      ((updateSelfLoopGeom cx cy w h side).endPt.y -
        (updateSelfLoopGeom cx cy w h side).startPt.y) ^ 2 = 20 ^ 2 := by
  cases side <;> refine ⟨?_, ?_, ?_, ?_⟩ <;>
    (simp [updateSelfLoopGeom, edgeMidpoint]; try ring)

/-! ### Theorems about projected-overlap thresholds (C5) -/

/-- C5: at a projected overlap of exactly 10 units the test is strict: it
reports overlap exactly when the near-identical clause applies, i.e. when the
projected minima and maxima are each within 5 units (the clause's third
condition, lengths within 10 units, is implied by those two bounds). -/
theorem segmentsOverlap_boundary_strict (seg1Min seg1Max seg2Min seg2Max : ℚ)
    (hb : min seg1Max seg2Max - max seg1Min seg2Min = 10) :
    segmentsOverlapInProjection seg1Min seg1Max seg2Min seg2Max = true ↔
      (|seg1Min - seg2Min| < 5 ∧ |seg1Max - seg2Max| < 5) := by
  simp only [segmentsOverlapInProjection]
  by_cases hcl : |seg1Min - seg2Min| < 5 ∧ |seg1Max - seg2Max| < 5 ∧
      abs (|seg1Max - seg1Min| - |seg2Max - seg2Min|) < 10
  · rw [if_pos hcl]
    exact ⟨fun _ => ⟨hcl.1, hcl.2.1⟩, fun _ => rfl⟩
  · rw [if_neg hcl, decide_eq_true_iff, hb]
    constructor
    · intro h
      exact absurd h (by norm_num)
    · rintro ⟨h1, h2⟩
      exfalso
      refine hcl ⟨h1, h2, ?_⟩
      have h3 : abs (|seg1Max - seg1Min| - |seg2Max - seg2Min|) ≤
          |(seg1Max - seg1Min) - (seg2Max - seg2Min)| := abs_abs_sub_abs_le_abs_sub _ _
      have h4 : (seg1Max - seg1Min) - (seg2Max - seg2Min) =
          (seg1Max - seg2Max) + (seg2Min - seg1Min) := by ring
      have h5 : |(seg1Max - seg2Max) + (seg2Min - seg1Min)| ≤
          |seg1Max - seg2Max| + |seg2Min - seg1Min| := abs_add _ _
      have h6 : |seg2Min - seg1Min| = |seg1Min - seg2Min| := abs_sub_comm _ _
      rw [h4] at h3
      linarith

/-- Witness for C5: concrete projected ranges `[0,14]` and `[4,30]` overlap
by exactly 10 units, are not near-identical, and are classified as not
overlapping. -/
theorem segmentsOverlap_boundary_strict_witness :
    min (14 : ℚ) 30 - max 0 4 = 10 ∧
    segmentsOverlapInProjection 0 14 4 30 = false := by
  have h := segmentsOverlap_boundary_strict 0 14 4 30 (by norm_num)
  refine ⟨by norm_num, ?_⟩
  cases hres : segmentsOverlapInProjection 0 14 4 30 with
  | false => rfl
  | true =>
    have := h.mp hres
    have h2 : |(14 : ℚ) - 30| = 16 := by norm_num
    rw [h2] at this
    exact absurd this.2 (by norm_num)

/-! ### Theorems about the boundary intersector (C3) -/

/-- Fold invariant of `_find_closest_point_on_boundary`: the result is the
fallback centre or an accepted hit on one of the segments. -/
theorem findClosestPointOnBoundary_spec (sq : ℚ → ℚ) (center targetCenter : Pt)
    (segs : List (Pt × Pt)) :
    findClosestPointOnBoundary sq center targetCenter segs = center ∨
      ∃ seg ∈ segs, AcceptedHit sq center targetCenter seg
        (findClosestPointOnBoundary sq center targetCenter segs) := by
  simp only [findClosestPointOnBoundary]
  split
  · exact Or.inl rfl
  · refine List.foldlRecOn
      (motive := fun r : Pt × Option ℚ =>
        r.1 = center ∨ ∃ seg ∈ segs, AcceptedHit sq center targetCenter seg r.1)
      segs _ _ (Or.inl rfl) ?_
    intro acc hacc seg hseg
    split
    · exact hacc
    · rename_i intersection hint
      split
      · rename_i hdot
        have hhit : AcceptedHit sq center targetCenter seg intersection := by
          unfold AcceptedHit rayDir
          exact ⟨hint, hdot⟩
        split
        · exact Or.inr ⟨seg, hseg, hhit⟩
        · split
          · exact Or.inr ⟨seg, hseg, hhit⟩
          · exact hacc
      · exact hacc

/-- C3: the boundary intersector never fails.  With coincident centre and
target it returns the centre unchanged (the degenerate direction is a no-op,
not an error); in every case it returns either the centre as the safe
fallback or an accepted boundary intersection, so in particular when no
valid intersection exists it returns the centre — for every square-root
function and every outline tessellation. -/
theorem getEdgeIntersection_total (sq : ℚ → ℚ) (center targetCenter : Pt)
    (segs : List (Pt × Pt)) :
    (center = targetCenter →
      getEdgeIntersection sq center targetCenter segs = center) ∧
    (getEdgeIntersection sq center targetCenter segs = center ∨
      ∃ seg ∈ segs, AcceptedHit sq center targetCenter seg
        (getEdgeIntersection sq center targetCenter segs)) := by
  constructor
  · intro h
    subst h
    simp only [getEdgeIntersection, sub_self, abs_zero]
    rw [if_pos ⟨by norm_num, by norm_num⟩]
  · simp only [getEdgeIntersection]
    split
    · exact Or.inl rfl
    · exact findClosestPointOnBoundary_spec sq center targetCenter segs

/-- Witness for C3: coincident centre and target on a concrete segment list
return the centre unchanged. -/
theorem getEdgeIntersection_total_witness :
    getEdgeIntersection ratSqrt ⟨1, 2⟩ ⟨1, 2⟩ [(⟨0, 0⟩, ⟨0, 1⟩)] = ⟨1, 2⟩ :=
  (getEdgeIntersection_total ratSqrt ⟨1, 2⟩ ⟨1, 2⟩ [(⟨0, 0⟩, ⟨0, 1⟩)]).1 rfl

/-! ### Theorems about degenerate parallel classification (C4) -/

/-- C4 (counterexample): two degenerate (zero-length) coincident
centre-to-centre segments — here two self-loop arrows on the same node — are
classified parallel-and-overlapping by the shared-endpoint special case even
though both computed direction lengths are `0 < 1e-6`, and each such arrow is
placed in the other's parallel group by `_find_parallel_arrows`. -/
theorem degenerate_pair_grouped :
    linesParallelOverlapping ratSqrt ⟨⟨0, 0⟩, ⟨0, 0⟩⟩ ⟨⟨0, 0⟩, ⟨0, 0⟩⟩ = true ∧
    ratSqrt ((Line.vector ⟨⟨0, 0⟩, ⟨0, 0⟩⟩).x ^ 2 +
      (Line.vector ⟨⟨0, 0⟩, ⟨0, 0⟩⟩).y ^ 2) < 1e-6 ∧
    findParallelArrows ratSqrt ⟨[⟨0, 0, 0, 80, 80⟩], [initArrow 1 0 0, initArrow 2 0 0]⟩
      (initArrow 1 0 0) = [initArrow 2 0 0] := by
  have hpar : linesParallelOverlapping ratSqrt ⟨⟨0, 0⟩, ⟨0, 0⟩⟩ ⟨⟨0, 0⟩, ⟨0, 0⟩⟩ = true := by
    simp only [linesParallelOverlapping]
    rw [if_pos (by norm_num)]
  have hvec : (Line.vector ⟨⟨0, 0⟩, ⟨0, 0⟩⟩).x ^ 2 +
      (Line.vector ⟨⟨0, 0⟩, ⟨0, 0⟩⟩).y ^ 2 = 0 := by
    norm_num [Line.vector]
  refine ⟨hpar, ?_, ?_⟩
  · rw [hvec, ratSqrt]
    norm_num
  · have hline1 : arrowLine ⟨[⟨0, 0, 0, 80, 80⟩], [initArrow 1 0 0, initArrow 2 0 0]⟩
        (initArrow 1 0 0) = ⟨⟨0, 0⟩, ⟨0, 0⟩⟩ := by
      norm_num [arrowLine, getNode, initArrow, List.find?]
    have hline2 : arrowLine ⟨[⟨0, 0, 0, 80, 80⟩], [initArrow 1 0 0, initArrow 2 0 0]⟩
        (initArrow 2 0 0) = ⟨⟨0, 0⟩, ⟨0, 0⟩⟩ := by
      norm_num [arrowLine, getNode, initArrow, List.find?]
    simp only [findParallelArrows, List.filter, hline1, hline2, hpar]
    norm_num [initArrow]

/-- C4 (amended): outside the shared-endpoint special cases the claim holds:
if the two segments do not (nearly) share endpoints in either order and
either computed direction length is below `1e-6`, the pair is classified as
not parallel-and-overlapping — for every square-root function. -/
theorem degenerate_not_parallel (sq : ℚ → ℚ) (line1 line2 : Line)
    (hshared : ¬ (|line1.s.x - line2.s.x| < 1 ∧ |line1.s.y - line2.s.y| < 1 ∧
      |line1.e.x - line2.e.x| < 1 ∧ |line1.e.y - line2.e.y| < 1))
    (hswapped : ¬ (|line1.s.x - line2.e.x| < 1 ∧ |line1.s.y - line2.e.y| < 1 ∧
      |line1.e.x - line2.s.x| < 1 ∧ |line1.e.y - line2.s.y| < 1))
    (hdeg : sq (line1.vector.x ^ 2 + line1.vector.y ^ 2) < 1e-6 ∨
      sq (line2.vector.x ^ 2 + line2.vector.y ^ 2) < 1e-6) :
    linesParallelOverlapping sq line1 line2 = false := by
  simp only [linesParallelOverlapping]
  rw [if_neg hshared, if_neg hswapped, if_pos hdeg]

/-- Witness for C4 (amended): a degenerate segment far away from a second
segment is not grouped with it. -/
theorem degenerate_not_parallel_witness :
    linesParallelOverlapping ratSqrt ⟨⟨0, 0⟩, ⟨0, 0⟩⟩ ⟨⟨100, 100⟩, ⟨200, 100⟩⟩ = false :=
  degenerate_not_parallel ratSqrt ⟨⟨0, 0⟩, ⟨0, 0⟩⟩ ⟨⟨100, 100⟩, ⟨200, 100⟩⟩
    (by norm_num) (by norm_num)
    (Or.inl (by
      have hvec : (Line.vector ⟨⟨0, 0⟩, ⟨0, 0⟩⟩).x ^ 2 +
          (Line.vector ⟨⟨0, 0⟩, ⟨0, 0⟩⟩).y ^ 2 = 0 := by
        norm_num [Line.vector]
      rw [hvec, ratSqrt]
      norm_num))

/-! ### Theorems about self-loop side selection (C8) -/

/-- Python `min` with a key over the four-entry score dict returns the first
entry attaining the minimal value, in insertion order. -/
theorem pickMinSide_spec (st sb sl sr : ℕ) :
    (pickMinSide [(Side.top, st), (Side.bottom, sb), (Side.left, sl),
        (Side.right, sr)] = Side.top ↔ st ≤ sb ∧ st ≤ sl ∧ st ≤ sr) ∧
    (pickMinSide [(Side.top, st), (Side.bottom, sb), (Side.left, sl),
        (Side.right, sr)] = Side.bottom ↔ sb < st ∧ sb ≤ sl ∧ sb ≤ sr) ∧
    (pickMinSide [(Side.top, st), (Side.bottom, sb), (Side.left, sl),
        (Side.right, sr)] = Side.left ↔ sl < st ∧ sl < sb ∧ sl ≤ sr) ∧
    (pickMinSide [(Side.top, st), (Side.bottom, sb), (Side.left, sl),
        (Side.right, sr)] = Side.right ↔ sr < st ∧ sr < sb ∧ sr < sl) := by
  simp only [pickMinSide, List.foldl]
  split_ifs <;> simp_all <;> omega

/-- `_find_best_loop_side` is the first minimum of the four probe scores. -/
theorem findBestLoopSide_eq_pickMin (sc : Scene) (a : ArrowState) :
    findBestLoopSide sc a = pickMinSide
      [(Side.top, loopSideScore sc a Side.top),
       (Side.bottom, loopSideScore sc a Side.bottom),
       (Side.left, loopSideScore sc a Side.left),
       (Side.right, loopSideScore sc a Side.right)] := rfl

/-- C8 (amended): `_find_best_loop_side` returns the side with the minimal
occupancy score, ties broken by the fixed order top, bottom, left, right
(first minimum in that order); and when the scene contains no `get_text`
item other than the node itself — no other node and no arrow item — every
side scores `0` and the loop is placed on top.  (Arrows also carry
`get_text`, so an arrow intersecting a probe rectangle raises that side's
score; the unamended claim fails there, see the counterexample.) -/
theorem findBestLoopSide_spec (sc : Scene) (a : ArrowState) :
    (findBestLoopSide sc a = Side.top ↔
      loopSideScore sc a Side.top ≤ loopSideScore sc a Side.bottom ∧
      loopSideScore sc a Side.top ≤ loopSideScore sc a Side.left ∧
      loopSideScore sc a Side.top ≤ loopSideScore sc a Side.right) ∧
    (findBestLoopSide sc a = Side.bottom ↔
      loopSideScore sc a Side.bottom < loopSideScore sc a Side.top ∧
      loopSideScore sc a Side.bottom ≤ loopSideScore sc a Side.left ∧
      loopSideScore sc a Side.bottom ≤ loopSideScore sc a Side.right) ∧
    (findBestLoopSide sc a = Side.left ↔
      loopSideScore sc a Side.left < loopSideScore sc a Side.top ∧
      loopSideScore sc a Side.left < loopSideScore sc a Side.bottom ∧
      loopSideScore sc a Side.left ≤ loopSideScore sc a Side.right) ∧
    (findBestLoopSide sc a = Side.right ↔
      loopSideScore sc a Side.right < loopSideScore sc a Side.top ∧
      loopSideScore sc a Side.right < loopSideScore sc a Side.bottom ∧
      loopSideScore sc a Side.right < loopSideScore sc a Side.left) ∧
    ((∀ m ∈ sc.nodes, m.nid = a.startNode) → sc.arrows = [] →
      (∀ side, loopSideScore sc a side = 0) ∧ findBestLoopSide sc a = Side.top) := by
  have hp := pickMinSide_spec (loopSideScore sc a Side.top)
    (loopSideScore sc a Side.bottom) (loopSideScore sc a Side.left)
    (loopSideScore sc a Side.right)
  rw [findBestLoopSide_eq_pickMin]
  refine ⟨hp.1, hp.2.1, hp.2.2.1, hp.2.2.2, ?_⟩
  intro hn harr
  have hzero : ∀ side, loopSideScore sc a side = 0 := by
    intro side
    cases side <;>
      simp only [loopSideScore, sideScore, harr, List.filter_nil, List.length_nil,
        Nat.add_zero, List.length_eq_zero] <;>
      exact List.filter_eq_nil_iff.mpr (fun m hm => by simp [hn m hm])
  refine ⟨hzero, ?_⟩
  exact hp.1.mpr (by simp [hzero])

/-- Witness for C8 (amended): a scene holding only the node itself places
the loop on top with all scores zero. -/
theorem findBestLoopSide_spec_witness :
    (∀ side, loopSideScore ⟨[⟨0, 0, 0, 80, 80⟩], []⟩ (initArrow 1 0 0) side = 0) ∧
    findBestLoopSide ⟨[⟨0, 0, 0, 80, 80⟩], []⟩ (initArrow 1 0 0) = Side.top :=
  (findBestLoopSide_spec ⟨[⟨0, 0, 0, 80, 80⟩], []⟩ (initArrow 1 0 0)).2.2.2.2
    (fun m hm => by
      rw [List.mem_singleton.mp hm]
      rfl)
    rfl

/-- C8 (counterexample): in a scene whose only node is the loop's own node
but which still holds the self-loop arrow as placed on top by the engine,
the top probe scores `1` (the loop's own bounding box), so not every side
scores `0`, and the loop is moved to the bottom instead of staying on top. -/
theorem loopSide_occupied_counterexample :
    (∀ m ∈ (⟨[⟨0, 1000, 1000, 80, 80⟩],
        [⟨1, 0, 0, ⟨990, 960⟩, ⟨1010, 960⟩, true, ⟨1000, 912⟩, 48, false, 0,
          ⟨0, 0⟩, ⟨0, 0⟩, none⟩]⟩ : Scene).nodes, m.nid = 0) ∧
    loopSideScore ⟨[⟨0, 1000, 1000, 80, 80⟩],
        [⟨1, 0, 0, ⟨990, 960⟩, ⟨1010, 960⟩, true, ⟨1000, 912⟩, 48, false, 0,
          ⟨0, 0⟩, ⟨0, 0⟩, none⟩]⟩
      ⟨1, 0, 0, ⟨990, 960⟩, ⟨1010, 960⟩, true, ⟨1000, 912⟩, 48, false, 0,
        ⟨0, 0⟩, ⟨0, 0⟩, none⟩ Side.top = 1 ∧
    findBestLoopSide ⟨[⟨0, 1000, 1000, 80, 80⟩],
        [⟨1, 0, 0, ⟨990, 960⟩, ⟨1010, 960⟩, true, ⟨1000, 912⟩, 48, false, 0,
          ⟨0, 0⟩, ⟨0, 0⟩, none⟩]⟩
      ⟨1, 0, 0, ⟨990, 960⟩, ⟨1010, 960⟩, true, ⟨1000, 912⟩, 48, false, 0,
        ⟨0, 0⟩, ⟨0, 0⟩, none⟩ = Side.bottom := by
  refine ⟨?_, ?_, ?_⟩
  · intro m hm
    rw [List.mem_singleton.mp hm]
  · norm_num [loopSideScore, sideScore, getNode, List.find?, List.filter,
      nodeBoundingRect, arrowBoundingRect, Rect.overlaps]
  · norm_num [findBestLoopSide, pickMinSide, sideScore, getNode, List.find?,
      List.filter, nodeBoundingRect, arrowBoundingRect, Rect.overlaps]

/-! ### Theorems about duplicate-arrow curve offsets (C6) -/

/-- `sameEnds` is reflexive. -/
theorem sameEnds_refl (a : ArrowState) : sameEnds a a := Or.inl ⟨rfl, rfl⟩

/-- Arrows sharing endpoints have identical or swapped centre-to-centre
lines, so the shared-endpoint special cases classify them as
parallel-and-overlapping, whatever the square-root function. -/
theorem sameEnds_parallel (sq : ℚ → ℚ) (sc : Scene) {a o : ArrowState}
    (h : sameEnds a o) :
    linesParallelOverlapping sq (arrowLine sc a) (arrowLine sc o) = true := by
  simp only [linesParallelOverlapping]
  rcases h with ⟨h1, h2⟩ | ⟨h1, h2⟩
  · rw [if_pos (by norm_num [arrowLine, h1, h2])]
  · by_cases hc : |(arrowLine sc a).s.x - (arrowLine sc o).s.x| < 1 ∧
        |(arrowLine sc a).s.y - (arrowLine sc o).s.y| < 1 ∧
        |(arrowLine sc a).e.x - (arrowLine sc o).e.x| < 1 ∧
        |(arrowLine sc a).e.y - (arrowLine sc o).e.y| < 1
    · rw [if_pos hc]
    · rw [if_neg hc, if_pos (by norm_num [arrowLine, h1, h2])]

/-- In a list of arrows with pairwise distinct identity keys, filtering out
one member's key is erasing that member. -/
theorem filter_aid_ne_eq_erase :
    ∀ (l : List ArrowState) (x : ArrowState),
      (l.map (fun o => o.aid)).Nodup → x ∈ l →
      l.filter (fun o => decide (o.aid ≠ x.aid)) = l.erase x := by
  intro l
  induction l with
  | nil => intro x _ hx; exact absurd hx (List.not_mem_nil x)
  | cons y t ih =>
    intro x hnd hx
    rw [List.map_cons, List.nodup_cons] at hnd
    by_cases hxy : x = y
    · subst hxy
      rw [List.erase_cons_head]
      rw [List.filter_cons_of_neg (by simp)]
      apply List.filter_eq_self.mpr
      intro o ho
      simp only [decide_eq_true_eq]
      intro hoa
      exact hnd.1 (by rw [← hoa]; exact List.mem_map_of_mem _ ho)
    · have hxt : x ∈ t := by
        rcases List.mem_cons.mp hx with h | h
        · exact absurd h hxy
        · exact h
      have hyne : y.aid ≠ x.aid := by
        intro he
        exact hnd.1 (by rw [he]; exact List.mem_map_of_mem _ hxt)
      rw [List.filter_cons_of_pos (by simpa using hyne)]
      rw [List.erase_cons_tail (by simp [beq_iff_eq]; intro h; exact hxy h.symm)]
      rw [ih x hnd.2 hxt]

/-- `sortByAid` permutes its input. -/
theorem sortByAid_perm (l : List ArrowState) : List.Perm (sortByAid l) l :=
  List.perm_insertionSort _ l

/-- `sortByAid` sorts strictly by the identity key when keys are distinct. -/
theorem sortByAid_sorted_lt {l : List ArrowState}
    (hnd : (l.map (fun o => o.aid)).Nodup) :
    List.Sorted (fun u v : ArrowState => u.aid < v.aid) (sortByAid l) := by
  have hs : List.Sorted (fun u v : ArrowState => u.aid ≤ v.aid) (sortByAid l) := by
    letI : IsTotal ArrowState (fun u v : ArrowState => u.aid ≤ v.aid) :=
      ⟨fun a b => Nat.le_total a.aid b.aid⟩
    letI : IsTrans ArrowState (fun u v : ArrowState => u.aid ≤ v.aid) :=
      ⟨fun a b c h1 h2 => Nat.le_trans h1 h2⟩
    exact List.sorted_insertionSort _ l
  have hnd2 : ((sortByAid l).map (fun o => o.aid)).Nodup :=
    (((sortByAid_perm l).map (fun o => o.aid)).nodup_iff).mpr hnd
  have hpne : (sortByAid l).Pairwise (fun u v : ArrowState => u.aid ≠ v.aid) :=
    List.pairwise_map.mp hnd2
  exact (hs.and hpne).imp fun h => Nat.lt_of_le_of_ne h.1 h.2

/-- Lists with distinct identity keys have a unique sorted order: sorting
either of two permutation-equivalent lists gives the same result. -/
theorem sortByAid_eq_of_perm {l1 l2 : List ArrowState} (hp : List.Perm l1 l2)
    (hnd : (l1.map (fun o => o.aid)).Nodup) :
    sortByAid l1 = sortByAid l2 := by
  letI : IsAntisymm ArrowState (fun u v : ArrowState => u.aid < v.aid) :=
    ⟨fun a b h1 h2 => absurd (Nat.lt_trans h1 h2) (Nat.lt_irrefl _)⟩
  have hnd2 : (l2.map (fun o => o.aid)).Nodup := ((hp.map _).nodup_iff).mp hnd
  exact List.eq_of_perm_of_sorted
    (((sortByAid_perm l1).trans hp).trans (sortByAid_perm l2).symm)
    (sortByAid_sorted_lt hnd) (sortByAid_sorted_lt hnd2)

/-- `_calculate_bezier_control_points` writes only the two control points:
offset and flags are untouched. -/
theorem calcBezier_preserves (sq : ℚ → ℚ) (b : ArrowState) :
    (calculateBezierControlPoints sq b).curveOffset = b.curveOffset ∧
    (calculateBezierControlPoints sq b).isCurved = b.isCurved ∧
    (calculateBezierControlPoints sq b).isSelfLoop = b.isSelfLoop := by
  unfold calculateBezierControlPoints
  split
  · exact ⟨rfl, rfl, rfl⟩
  · exact ⟨rfl, rfl, rfl⟩

/-- C6: duplicate-arrow fan offsets.  For an arrow `x` of a scene whose
identity keys are distinct, let `g` be its duplicate family (the scene
arrows sharing both of its endpoints in either order, `x` included), sorted
by the identity key.  With exactly two members, the curve assigner gives `x`
offset `+30` when it is index 0 of the sorted pair and `-30` when it is
index 1; with `n > 2` members, `x` at sorted index `i` receives
`(i - (n-1)/2) × 30` — the symmetric fan. -/
theorem curve_offset_duplicates (sq : ℚ → ℚ) (sc : Scene) (x : ArrowState)
    (hnodup : (sc.arrows.map (fun o => o.aid)).Nodup) (hx : x ∈ sc.arrows) :
    ((sameEndsGroup sc x).length = 2 →
      (updateCurvePositioning sq sc x).curveOffset =
        if (sameEndsGroup sc x).indexOf x = 0 then 30 else -30) ∧
    (2 < (sameEndsGroup sc x).length →
      (updateCurvePositioning sq sc x).curveOffset =
        (((sameEndsGroup sc x).indexOf x : ℚ) -
          (((sameEndsGroup sc x).length : ℚ) - 1) / 2) * 30) := by
  have hxmem : x ∈ sc.arrows.filter (fun o => decide (sameEnds x o)) :=
    List.mem_filter.mpr ⟨hx, by simp [sameEnds_refl x]⟩
  have hndf : ((sc.arrows.filter (fun o => decide (sameEnds x o))).map
      (fun o => o.aid)).Nodup :=
    List.Nodup.sublist ((List.filter_sublist _).map _) hnodup
  have hkey : (findParallelArrows sq sc x).filter (fun o => decide (sameEnds x o)) =
      (sc.arrows.filter (fun o => decide (sameEnds x o))).erase x := by
    rw [← filter_aid_ne_eq_erase (sc.arrows.filter (fun o => decide (sameEnds x o)))
      x hndf hxmem]
    simp only [findParallelArrows]
    rw [List.filter_filter, List.filter_filter]
    apply List.filter_congr
    intro o ho
    by_cases h1 : sameEnds x o
    · have hp := sameEnds_parallel sq sc (a := x) (o := o) h1
      simp [h1, hp]
    · simp [h1]
  have hgroup : sortByAid
      (x :: (findParallelArrows sq sc x).filter (fun o => decide (sameEnds x o)))
      = sameEndsGroup sc x := by
    rw [hkey]
    apply sortByAid_eq_of_perm
    · exact (List.perm_cons_erase hxmem).symm
    · exact (((List.perm_cons_erase hxmem).map (fun o => o.aid)).nodup_iff).mp hndf
  have hleng : (sameEndsGroup sc x).length =
      (sc.arrows.filter (fun o => decide (sameEnds x o))).length :=
    (sortByAid_perm _).length_eq
  -- generic computation of the same-endpoints branch
  have hmain : 2 ≤ (sameEndsGroup sc x).length →
      (updateCurvePositioning sq sc x).curveOffset =
        if (sameEndsGroup sc x).length = 2 then
          (if (sameEndsGroup sc x).indexOf x = 0 then (30 : ℚ) else -30)
        else
          (((sameEndsGroup sc x).indexOf x : ℚ) -
            (((sameEndsGroup sc x).length : ℚ) - 1) / 2) * 30 := by
    intro hlen
    have herase_len :
        ((sc.arrows.filter (fun o => decide (sameEnds x o))).erase x).length =
          (sameEndsGroup sc x).length - 1 := by
      rw [List.length_erase_of_mem hxmem, hleng]
    have hne : (findParallelArrows sq sc x).filter
        (fun o => decide (sameEnds x o)) ≠ [] := by
      rw [hkey]
      intro h
      rw [h] at herase_len
      simp only [List.length_nil] at herase_len
      omega
    have hpane : findParallelArrows sq sc x ≠ [] := by
      intro h
      apply hne
      rw [h]
      rfl
    have hpaE : (findParallelArrows sq sc x).isEmpty = false := by
      simpa [List.isEmpty_iff] using hpane
    have hfE : ((findParallelArrows sq sc x).filter
        (fun o => decide (sameEnds x o))).isEmpty = false := by
      simpa [List.isEmpty_iff] using hne
    simp only [updateCurvePositioning, hpaE, Bool.false_eq_true, if_false,
      hfE, Bool.not_false, if_true, hgroup]
    rcases (calcBezier_preserves sq
      { (if (sameEndsGroup sc x).length = 2 then
          { { x with isCurved := true } with
            curveOffset := if (sameEndsGroup sc x).indexOf x = 0 then (30 : ℚ) else -(30 : ℚ) }
        else
          { { x with isCurved := true } with
            curveOffset := (((sameEndsGroup sc x).indexOf x : ℚ) -
              (((sameEndsGroup sc x).length : ℚ) - 1) / 2) * (30 : ℚ) }) with
        curveDirection := none }) with ⟨hco, _, _⟩
    rw [hco]
    split
    · rfl
    · rfl
  constructor
  · intro hlen
    have := hmain (by omega)
    rwa [if_pos hlen] at this
  · intro hlen
    have := hmain (by omega)
    rwa [if_neg (by omega)] at this

/-- Witness for C6: two duplicate arrows `0 → 1` (identity keys 1 and 2)
receive offsets `+30` and `-30`, assigned by sorted identity order. -/
theorem curve_offset_duplicates_witness :
    (updateCurvePositioning ratSqrt
        ⟨[⟨0, 0, 0, 80, 80⟩, ⟨1, 200, 0, 80, 80⟩],
          [initArrow 1 0 1, initArrow 2 0 1]⟩ (initArrow 1 0 1)).curveOffset = 30 ∧
    (updateCurvePositioning ratSqrt
        ⟨[⟨0, 0, 0, 80, 80⟩, ⟨1, 200, 0, 80, 80⟩],
          [initArrow 1 0 1, initArrow 2 0 1]⟩ (initArrow 2 0 1)).curveOffset = -30 := by
  have hnd : ((([initArrow 1 0 1, initArrow 2 0 1] : List ArrowState)).map
      (fun o => o.aid)).Nodup := by
    simp [initArrow]
  have hg1 : sameEndsGroup ⟨[⟨0, 0, 0, 80, 80⟩, ⟨1, 200, 0, 80, 80⟩],
      [initArrow 1 0 1, initArrow 2 0 1]⟩ (initArrow 1 0 1) =
      [initArrow 1 0 1, initArrow 2 0 1] := by
    norm_num [sameEndsGroup, sortByAid, List.insertionSort, List.orderedInsert,
      sameEnds, initArrow, List.filter]
  have hg2 : sameEndsGroup ⟨[⟨0, 0, 0, 80, 80⟩, ⟨1, 200, 0, 80, 80⟩],
      [initArrow 1 0 1, initArrow 2 0 1]⟩ (initArrow 2 0 1) =
      [initArrow 1 0 1, initArrow 2 0 1] := by
    norm_num [sameEndsGroup, sortByAid, List.insertionSort, List.orderedInsert,
      sameEnds, initArrow, List.filter]
  have hne : initArrow 1 0 1 ≠ initArrow 2 0 1 := by simp [initArrow]
  constructor
  · have h := (curve_offset_duplicates ratSqrt
      ⟨[⟨0, 0, 0, 80, 80⟩, ⟨1, 200, 0, 80, 80⟩],
        [initArrow 1 0 1, initArrow 2 0 1]⟩ (initArrow 1 0 1) hnd
      (by simp)).1 (by rw [hg1]; rfl)
    rw [h, hg1]
    simp
  · have h := (curve_offset_duplicates ratSqrt
      ⟨[⟨0, 0, 0, 80, 80⟩, ⟨1, 200, 0, 80, 80⟩],
        [initArrow 1 0 1, initArrow 2 0 1]⟩ (initArrow 2 0 1) hnd
      (by simp)).1 (by rw [hg2]; rfl)
    rw [h, hg2]
    rw [List.indexOf_cons_ne _ hne]
    simp

/-! ### Theorems about the self-loop/curved flag invariant (C7) -/

/-- The self-loop position update sets `is_self_loop` and leaves `is_curved`
exactly as it was. -/
theorem updateSelfLoopPosition_flags (sc : Scene) (a : ArrowState) :
    (updateSelfLoopPosition sc a).isSelfLoop = true ∧
    (updateSelfLoopPosition sc a).isCurved = a.isCurved :=
  ⟨rfl, rfl⟩

/-- C7 (code bug): an arrow `0 → 1` that the engine curved because of its
duplicate becomes a self-loop via `set_nodes(2, 2)`; the self-loop path sets
`is_self_loop = true` but never clears `is_curved`, so both flags are true
afterwards, violating the exclusive-rendering-mode invariant — for every
square-root function and every outline tessellation. -/
theorem selfLoop_curved_flags_bug (sq : ℚ → ℚ) (outline : DNode → List (Pt × Pt)) :
    (updatePosition sq outline
      ⟨[⟨0, 0, 0, 80, 80⟩, ⟨1, 200, 0, 80, 80⟩, ⟨2, 500, 500, 80, 80⟩],
        [initArrow 1 0 1, initArrow 2 0 1]⟩ (initArrow 1 0 1)).isCurved = true ∧
    (setNodes sq outline
      ⟨[⟨0, 0, 0, 80, 80⟩, ⟨1, 200, 0, 80, 80⟩, ⟨2, 500, 500, 80, 80⟩],
        [initArrow 1 0 1, initArrow 2 0 1]⟩
      (updatePosition sq outline
        ⟨[⟨0, 0, 0, 80, 80⟩, ⟨1, 200, 0, 80, 80⟩, ⟨2, 500, 500, 80, 80⟩],
          [initArrow 1 0 1, initArrow 2 0 1]⟩ (initArrow 1 0 1)) 2 2).isSelfLoop = true ∧
    (setNodes sq outline
      ⟨[⟨0, 0, 0, 80, 80⟩, ⟨1, 200, 0, 80, 80⟩, ⟨2, 500, 500, 80, 80⟩],
        [initArrow 1 0 1, initArrow 2 0 1]⟩
      (updatePosition sq outline
        ⟨[⟨0, 0, 0, 80, 80⟩, ⟨1, 200, 0, 80, 80⟩, ⟨2, 500, 500, 80, 80⟩],
          [initArrow 1 0 1, initArrow 2 0 1]⟩ (initArrow 1 0 1)) 2 2).isCurved = true := by
  have ha1 : (updateNormalArrowPosition sq outline
      ⟨[⟨0, 0, 0, 80, 80⟩, ⟨1, 200, 0, 80, 80⟩, ⟨2, 500, 500, 80, 80⟩],
        [initArrow 1 0 1, initArrow 2 0 1]⟩ (initArrow 1 0 1)).startNode = 0 ∧
      (updateNormalArrowPosition sq outline
      ⟨[⟨0, 0, 0, 80, 80⟩, ⟨1, 200, 0, 80, 80⟩, ⟨2, 500, 500, 80, 80⟩],
        [initArrow 1 0 1, initArrow 2 0 1]⟩ (initArrow 1 0 1)).endNode = 1 ∧
      (updateNormalArrowPosition sq outline
      ⟨[⟨0, 0, 0, 80, 80⟩, ⟨1, 200, 0, 80, 80⟩, ⟨2, 500, 500, 80, 80⟩],
        [initArrow 1 0 1, initArrow 2 0 1]⟩ (initArrow 1 0 1)).aid = 1 :=
    ⟨rfl, rfl, rfl⟩
  have hline1 : arrowLine
      ⟨[⟨0, 0, 0, 80, 80⟩, ⟨1, 200, 0, 80, 80⟩, ⟨2, 500, 500, 80, 80⟩],
        [initArrow 1 0 1, initArrow 2 0 1]⟩
      (updateNormalArrowPosition sq outline
        ⟨[⟨0, 0, 0, 80, 80⟩, ⟨1, 200, 0, 80, 80⟩, ⟨2, 500, 500, 80, 80⟩],
          [initArrow 1 0 1, initArrow 2 0 1]⟩ (initArrow 1 0 1)) =
      ⟨⟨0, 0⟩, ⟨200, 0⟩⟩ := by
    simp [arrowLine, ha1.1, ha1.2.1, getNode, List.find?]
  have hline2 : arrowLine
      ⟨[⟨0, 0, 0, 80, 80⟩, ⟨1, 200, 0, 80, 80⟩, ⟨2, 500, 500, 80, 80⟩],
        [initArrow 1 0 1, initArrow 2 0 1]⟩ (initArrow 2 0 1) =
      ⟨⟨0, 0⟩, ⟨200, 0⟩⟩ := by
    simp [arrowLine, initArrow, getNode, List.find?]
  have hpar : linesParallelOverlapping sq (⟨⟨0, 0⟩, ⟨200, 0⟩⟩ : Line)
      ⟨⟨0, 0⟩, ⟨200, 0⟩⟩ = true := by
    simp only [linesParallelOverlapping]
    rw [if_pos (by norm_num)]
  have hcurved : (updatePosition sq outline
      ⟨[⟨0, 0, 0, 80, 80⟩, ⟨1, 200, 0, 80, 80⟩, ⟨2, 500, 500, 80, 80⟩],
        [initArrow 1 0 1, initArrow 2 0 1]⟩ (initArrow 1 0 1)).isCurved = true := by
    simp only [updatePosition]
    rw [if_neg (by norm_num [initArrow])]
    have hpa : findParallelArrows sq
        ⟨[⟨0, 0, 0, 80, 80⟩, ⟨1, 200, 0, 80, 80⟩, ⟨2, 500, 500, 80, 80⟩],
          [initArrow 1 0 1, initArrow 2 0 1]⟩
        (updateNormalArrowPosition sq outline
          ⟨[⟨0, 0, 0, 80, 80⟩, ⟨1, 200, 0, 80, 80⟩, ⟨2, 500, 500, 80, 80⟩],
            [initArrow 1 0 1, initArrow 2 0 1]⟩ (initArrow 1 0 1)) =
        [initArrow 2 0 1] := by
      simp only [findParallelArrows, List.filter_cons, List.filter_nil,
        hline1, hline2, hpar, ha1.2.2]
      norm_num [initArrow]
    have hsame : ([initArrow 2 0 1] : List ArrowState).filter
        (fun o => decide (sameEnds (updateNormalArrowPosition sq outline
          ⟨[⟨0, 0, 0, 80, 80⟩, ⟨1, 200, 0, 80, 80⟩, ⟨2, 500, 500, 80, 80⟩],
            [initArrow 1 0 1, initArrow 2 0 1]⟩ (initArrow 1 0 1)) o)) =
        [initArrow 2 0 1] := by
      have hse : sameEnds (updateNormalArrowPosition sq outline
          ⟨[⟨0, 0, 0, 80, 80⟩, ⟨1, 200, 0, 80, 80⟩, ⟨2, 500, 500, 80, 80⟩],
            [initArrow 1 0 1, initArrow 2 0 1]⟩ (initArrow 1 0 1)) (initArrow 2 0 1) := by
        left
        exact ⟨ha1.1.trans (by norm_num [initArrow]), ha1.2.1.trans (by norm_num [initArrow])⟩
      simp [hse]
    simp only [updateCurvePositioning, hpa, hsame]
    simp only [List.isEmpty_cons, Bool.false_eq_true, if_false, Bool.not_false, if_true]
    split <;> rw [(calcBezier_preserves sq _).2.1]
  refine ⟨hcurved, ?_, ?_⟩
  · exact (updateSelfLoopPosition_flags _ _).1
  · rw [show (setNodes sq outline
      ⟨[⟨0, 0, 0, 80, 80⟩, ⟨1, 200, 0, 80, 80⟩, ⟨2, 500, 500, 80, 80⟩],
        [initArrow 1 0 1, initArrow 2 0 1]⟩
      (updatePosition sq outline
        ⟨[⟨0, 0, 0, 80, 80⟩, ⟨1, 200, 0, 80, 80⟩, ⟨2, 500, 500, 80, 80⟩],
          [initArrow 1 0 1, initArrow 2 0 1]⟩ (initArrow 1 0 1)) 2 2) =
      updateSelfLoopPosition
        ⟨[⟨0, 0, 0, 80, 80⟩, ⟨1, 200, 0, 80, 80⟩, ⟨2, 500, 500, 80, 80⟩],
          [initArrow 1 0 1, initArrow 2 0 1]⟩
        { (updatePosition sq outline
            ⟨[⟨0, 0, 0, 80, 80⟩, ⟨1, 200, 0, 80, 80⟩, ⟨2, 500, 500, 80, 80⟩],
              [initArrow 1 0 1, initArrow 2 0 1]⟩ (initArrow 1 0 1)) with
          startNode := 2, endNode := 2 } from rfl]
    rw [(updateSelfLoopPosition_flags _ _).2]
    exact hcurved

/-! ### Theorems about recompute idempotence (C9) -/

set_option maxHeartbeats 1000000 in
/-- C9 (code bug): the recompute pass is not idempotent.  A scene holding a
single 80×80 node at `(1000, 1000)` and one self-loop arrow places the loop
on top on the first pass (`loop_center = (1000, 912)`); on the second pass
the loop's own bounding box occupies the top and left probe rectangles (the
occupancy filter counts every `get_text` item, arrows included), so the loop
moves to the bottom (`loop_center = (1000, 1088)`): two passes differ from
one.  This holds for every square-root function and outline tessellation,
since the self-loop path uses neither. -/
theorem recompute_not_idempotent (sq : ℚ → ℚ) (outline : DNode → List (Pt × Pt)) :
    (recomputePass sq outline ⟨[⟨0, 1000, 1000, 80, 80⟩], [initArrow 1 0 0]⟩).arrows.map
        (fun a => a.loopCenter) = [⟨1000, 912⟩] ∧
    ((recomputePass sq outline (recomputePass sq outline
        ⟨[⟨0, 1000, 1000, 80, 80⟩], [initArrow 1 0 0]⟩)).arrows.map
        (fun a => a.loopCenter)) = [⟨1000, 1088⟩] ∧
    recomputePass sq outline (recomputePass sq outline
        ⟨[⟨0, 1000, 1000, 80, 80⟩], [initArrow 1 0 0]⟩) ≠
      recomputePass sq outline ⟨[⟨0, 1000, 1000, 80, 80⟩], [initArrow 1 0 0]⟩ := by
  have hside1 : findBestLoopSide ⟨[⟨0, 1000, 1000, 80, 80⟩], [initArrow 1 0 0]⟩
      (initArrow 1 0 0) = Side.top := by
    norm_num [findBestLoopSide, pickMinSide, sideScore, getNode, nodeBoundingRect,
      arrowBoundingRect, Rect.overlaps, List.find?, List.filter, initArrow]
  have hup1 : updatePosition sq outline ⟨[⟨0, 1000, 1000, 80, 80⟩], [initArrow 1 0 0]⟩
      (initArrow 1 0 0) =
      ⟨1, 0, 0, ⟨990, 960⟩, ⟨1010, 960⟩, true, ⟨1000, 912⟩, 48, false, 0,
        ⟨0, 0⟩, ⟨0, 0⟩, none⟩ := by
    rw [show updatePosition sq outline ⟨[⟨0, 1000, 1000, 80, 80⟩], [initArrow 1 0 0]⟩
        (initArrow 1 0 0) =
      updateSelfLoopPosition ⟨[⟨0, 1000, 1000, 80, 80⟩], [initArrow 1 0 0]⟩
        (initArrow 1 0 0) from rfl]
    simp only [updateSelfLoopPosition, hside1]
    norm_num [updateSelfLoopGeom, getNode, List.find?, initArrow]
  have h1 : recomputePass sq outline ⟨[⟨0, 1000, 1000, 80, 80⟩], [initArrow 1 0 0]⟩ =
      ⟨[⟨0, 1000, 1000, 80, 80⟩],
       [⟨1, 0, 0, ⟨990, 960⟩, ⟨1010, 960⟩, true, ⟨1000, 912⟩, 48, false, 0,
         ⟨0, 0⟩, ⟨0, 0⟩, none⟩]⟩ := by
    simp only [recomputePass, List.length_cons, List.length_nil, List.range_succ,
      List.range_zero, List.nil_append,
      List.foldl_cons, List.foldl_nil, List.get?, hup1, List.set]
  have hside2 : findBestLoopSide
      ⟨[⟨0, 1000, 1000, 80, 80⟩],
       [⟨1, 0, 0, ⟨990, 960⟩, ⟨1010, 960⟩, true, ⟨1000, 912⟩, 48, false, 0,
         ⟨0, 0⟩, ⟨0, 0⟩, none⟩]⟩
      (⟨1, 0, 0, ⟨990, 960⟩, ⟨1010, 960⟩, true, ⟨1000, 912⟩, 48, false, 0,
        ⟨0, 0⟩, ⟨0, 0⟩, none⟩ : ArrowState) = Side.bottom := by
    norm_num [findBestLoopSide, pickMinSide, sideScore, getNode, nodeBoundingRect,
      arrowBoundingRect, Rect.overlaps, List.find?, List.filter]
  have hup2 : updatePosition sq outline
      ⟨[⟨0, 1000, 1000, 80, 80⟩],
       [⟨1, 0, 0, ⟨990, 960⟩, ⟨1010, 960⟩, true, ⟨1000, 912⟩, 48, false, 0,
         ⟨0, 0⟩, ⟨0, 0⟩, none⟩]⟩
      (⟨1, 0, 0, ⟨990, 960⟩, ⟨1010, 960⟩, true, ⟨1000, 912⟩, 48, false, 0,
        ⟨0, 0⟩, ⟨0, 0⟩, none⟩ : ArrowState) =
      ⟨1, 0, 0, ⟨990, 1040⟩, ⟨1010, 1040⟩, true, ⟨1000, 1088⟩, 48, false, 0,
        ⟨0, 0⟩, ⟨0, 0⟩, none⟩ := by
    rw [show updatePosition sq outline
        ⟨[⟨0, 1000, 1000, 80, 80⟩],
         [⟨1, 0, 0, ⟨990, 960⟩, ⟨1010, 960⟩, true, ⟨1000, 912⟩, 48, false, 0,
           ⟨0, 0⟩, ⟨0, 0⟩, none⟩]⟩
        (⟨1, 0, 0, ⟨990, 960⟩, ⟨1010, 960⟩, true, ⟨1000, 912⟩, 48, false, 0,
          ⟨0, 0⟩, ⟨0, 0⟩, none⟩ : ArrowState) =
      updateSelfLoopPosition
        ⟨[⟨0, 1000, 1000, 80, 80⟩],
         [⟨1, 0, 0, ⟨990, 960⟩, ⟨1010, 960⟩, true, ⟨1000, 912⟩, 48, false, 0,
           ⟨0, 0⟩, ⟨0, 0⟩, none⟩]⟩
        (⟨1, 0, 0, ⟨990, 960⟩, ⟨1010, 960⟩, true, ⟨1000, 912⟩, 48, false, 0,
          ⟨0, 0⟩, ⟨0, 0⟩, none⟩ : ArrowState) from rfl]
    simp only [updateSelfLoopPosition, hside2]
    norm_num [updateSelfLoopGeom, getNode, List.find?]
  have h2 : recomputePass sq outline
      (⟨[⟨0, 1000, 1000, 80, 80⟩],
        [⟨1, 0, 0, ⟨990, 960⟩, ⟨1010, 960⟩, true, ⟨1000, 912⟩, 48, false, 0,
          ⟨0, 0⟩, ⟨0, 0⟩, none⟩]⟩ : Scene) =
      ⟨[⟨0, 1000, 1000, 80, 80⟩],
       [⟨1, 0, 0, ⟨990, 1040⟩, ⟨1010, 1040⟩, true, ⟨1000, 1088⟩, 48, false, 0,
         ⟨0, 0⟩, ⟨0, 0⟩, none⟩]⟩ := by
    simp only [recomputePass, List.length_cons, List.length_nil, List.range_succ,
      List.range_zero, List.nil_append,
      List.foldl_cons, List.foldl_nil, List.get?, hup2, List.set]
  rw [h1, h2]
  refine ⟨rfl, rfl, ?_⟩
  intro h
  have h3 := congrArg (fun sc : Scene => sc.arrows.map (fun a => a.loopCenter.y)) h
  norm_num at h3

end Erro
